import Mathlib

set_option linter.unusedVariables false

/-! Shallow embedding of the table-reconciliation logic of the server router
in src/server (functions parseJsonResponse, recognizeFromImage, searchAndFill
and modifyTable), together with proofs of the specification claims about it.
Strings are modelled as Lean strings, JavaScript arrays as lists, and the
out-of-range array read row[i] as the optional access row[i]?. -/

/-- Whitespace as matched by the JavaScript regex class \s and by
String.prototype.trim: ASCII whitespace, NBSP, the Unicode space separators,
the line separators and the BOM. -/
def isJsWs (c : Char) : Bool :=
  c = ' ' || c = '\t' || c = '\n' || c = '\r' || c = '\x0b' || c = '\x0c' ||
  c = '\u00A0' || c = '\u1680' ||
  (0x2000 ≤ c.toNat && c.toNat ≤ 0x200A) ||
  c = '\u2028' || c = '\u2029' || c = '\u202F' || c = '\u205F' ||
  c = '\u3000' || c = '\uFEFF'

/-- String.prototype.trim: drop JS whitespace from both ends. -/
def trimJs (s : String) : String :=
  String.mk (((s.toList.dropWhile isJsWs).reverse.dropWhile isJsWs).reverse)

/-- Whether the character list starts with three backticks. -/
def startsWithFence : List Char → Bool
  | '`' :: '`' :: '`' :: _ => true
  | _ => false

/-- Characters strictly before the first occurrence of three backticks, or
none when no such occurrence exists.  This is the lazy capture group of the
regex, which grows until the closing fence. -/
def takeBeforeFence : List Char → Option (List Char)
  | [] => none
  | c :: cs =>
    if startsWithFence (c :: cs) then some []
    else (takeBeforeFence cs).map (fun g => c :: g)

/-- Attempt of the fenced-block regex at one single position: an opening
fence, an optional literal json tag, greedy whitespace, then the lazy capture
up to the closing fence.  Greediness of the optional tag and of the
whitespace never changes whether a closing fence is reachable, because the
fence characters are neither whitespace nor part of the tag, so this
backtracking-free reading is equivalent to the regex engine's. -/
def matchFencedAt (cs : List Char) : Option (List Char) :=
  if startsWithFence cs then
    let rest := cs.drop 3
    let rest := if rest.take 4 = ['j', 's', 'o', 'n'] then rest.drop 4 else rest
    takeBeforeFence (rest.dropWhile isJsWs)
  else none

/-- Leftmost match of the fenced-block regex: try every start position from
the left, as the regex engine does. -/
def scanFenced : List Char → Option (List Char)
  | [] => none
  | c :: cs =>
    match matchFencedAt (c :: cs) with
    | some g => some g
    | none => scanFenced cs

/-- JSON values.  Numbers are modelled as integers; fractional and exponent
literals are rejected by the parser model, which is enough for every claim. -/
inductive Json where
  | jnull
  | jbool (b : Bool)
  | jnum (n : Int)
  | jstr (s : String)
  | jarr (elems : List Json)
  | jobj (fields : List (String × Json))
deriving Repr, BEq

/-- Whitespace accepted between JSON tokens. -/
def isJsonWs (c : Char) : Bool :=
  c = ' ' || c = '\t' || c = '\n' || c = '\r'

/-- Value of a hexadecimal digit. -/
def hexVal (c : Char) : Option Nat :=
  if 48 ≤ c.toNat && c.toNat ≤ 57 then some (c.toNat - 48)
  else if 97 ≤ c.toNat && c.toNat ≤ 102 then some (c.toNat - 87)
  else if 65 ≤ c.toNat && c.toNat ≤ 70 then some (c.toNat - 55)
  else none

/-- Decode the simple JSON string escapes. -/
def escChar (c : Char) : Option Char :=
  if c = '"' then some '"'
  else if c = '\\' then some '\\'
  else if c = '/' then some '/'
  else if c = 'b' then some '\x08'
  else if c = 'f' then some '\x0c'
  else if c = 'n' then some '\n'
  else if c = 'r' then some '\r'
  else if c = 't' then some '\t'
  else none

/-- Body of a JSON string after the opening quote: returns the decoded
characters and the input after the closing quote.  Fuel bounds the recursion;
every step consumes at least one character. -/
def parseStrChars : Nat → List Char → Option (List Char × List Char)
  | 0, _ => none
  | _, [] => none
  | fuel + 1, c :: cs =>
    if c = '"' then some ([], cs)
    else if c = '\\' then
      match cs with
      | [] => none
      | e :: cs2 =>
        match escChar e with
        | some d => (parseStrChars fuel cs2).map (fun p => (d :: p.1, p.2))
        | none =>
          if e = 'u' then
            match cs2 with
            | h1 :: h2 :: h3 :: h4 :: cs3 =>
              match hexVal h1, hexVal h2, hexVal h3, hexVal h4 with
              | some a, some b, some c3, some d =>
                (parseStrChars fuel cs3).map
                  (fun p => (Char.ofNat (((a * 16 + b) * 16 + c3) * 16 + d) :: p.1, p.2))
              | _, _, _, _ => none
            | _ => none
          else none
    else if c.toNat < 32 then none
    else (parseStrChars fuel cs).map (fun p => (c :: p.1, p.2))

/-- Numeric value of a digit list, most significant first. -/
def digitsToNat (ds : List Char) : Nat :=
  ds.foldl (fun acc c => acc * 10 + (c.toNat - 48)) 0

/-- JSON number literal: optional minus then digits, with the JSON
leading-zero restriction.  Fractional and exponent parts are out of scope of
this model and rejected. -/
def parseNum (cs : List Char) : Option (Json × List Char) :=
  let p := match cs with
    | '-' :: rest => (true, rest)
    | _ => (false, cs)
  let neg := p.1
  let cs1 := p.2
  let ds := cs1.takeWhile Char.isDigit
  let rest := cs1.drop ds.length
  if ds = [] then none
  else if 1 < ds.length && ds.head? = some '0' then none
  else
    match rest with
    | '.' :: _ => none
    | 'e' :: _ => none
    | 'E' :: _ => none
    | _ =>
      let n : Int := Int.ofNat (digitsToNat ds)
      some (.jnum (if neg then -n else n), rest)

mutual

/-- JSON value parser.  Fuel decreases on every nested call; the caller
passes ample fuel, so running out only happens beyond any actual input. -/
def parseVal : Nat → List Char → Option (Json × List Char)
  | 0, _ => none
  | fuel + 1, cs0 =>
    let cs := cs0.dropWhile isJsonWs
    match cs with
    | 'n' :: 'u' :: 'l' :: 'l' :: rest => some (.jnull, rest)
    | 't' :: 'r' :: 'u' :: 'e' :: rest => some (.jbool true, rest)
    | 'f' :: 'a' :: 'l' :: 's' :: 'e' :: rest => some (.jbool false, rest)
    | '"' :: rest =>
      (parseStrChars (rest.length + 1) rest).map
        (fun p => (.jstr (String.mk p.1), p.2))
    | '[' :: rest =>
      let rest2 := rest.dropWhile isJsonWs
      match rest2 with
      | ']' :: rest3 => some (.jarr [], rest3)
      | _ => (parseElems fuel rest2).map (fun p => (.jarr p.1, p.2))
    | '\x7b' :: rest =>
      let rest2 := rest.dropWhile isJsonWs
      match rest2 with
      | '\x7d' :: rest3 => some (.jobj [], rest3)
      | _ => (parseFields fuel rest2).map (fun p => (.jobj p.1, p.2))
    | _ => parseNum cs

/-- Comma-separated JSON array elements up to the closing bracket. -/
def parseElems : Nat → List Char → Option (List Json × List Char)
  | 0, _ => none
  | fuel + 1, cs =>
    match parseVal fuel cs with
    | none => none
    | some (v, rest) =>
      match rest.dropWhile isJsonWs with
      | ',' :: rest2 => (parseElems fuel rest2).map (fun p => (v :: p.1, p.2))
      | ']' :: rest2 => some ([v], rest2)
      | _ => none

/-- Comma-separated JSON object members up to the closing brace. -/
def parseFields : Nat → List Char → Option (List (String × Json) × List Char)
  | 0, _ => none
  | fuel + 1, cs =>
    match cs.dropWhile isJsonWs with
    | '"' :: rest =>
      match parseStrChars (rest.length + 1) rest with
      | none => none
      | some (key, rest2) =>
        match rest2.dropWhile isJsonWs with
        | ':' :: rest3 =>
          match parseVal fuel rest3 with
          | none => none
          | some (v, rest4) =>
            match rest4.dropWhile isJsonWs with
            | ',' :: rest5 =>
              (parseFields fuel rest5).map
                (fun p => ((String.mk key, v) :: p.1, p.2))
            | '\x7d' :: rest5 => some ([(String.mk key, v)], rest5)
            | _ => none
        | _ => none
    | _ => none

end

/-- JSON.parse: parse one value and require only whitespace to remain.
Twice the length plus two is ample fuel, since at most two fuel units are
spent per consumed character. -/
def jsonParse (s : String) : Option Json :=
  match parseVal (2 * s.length + 2) s.toList with
  | some (v, rest) => if rest.dropWhile isJsonWs = [] then some v else none
  | none => none

/-- String selected by parseJsonResponse before parsing: the first fenced
block's trimmed inner content when the fence regex matches, otherwise the
trimmed text itself. -/
def extractJsonStr (content : String) : String :=
  match scanFenced content.toList with
  | some g => trimJs (String.mk g)
  | none => trimJs content

/-- parseJsonResponse from the server router: extract the JSON substring,
then parse it.  A JSON.parse exception is modelled as none. -/
def parseJsonResponse (content : String) : Option Json :=
  jsonParse (extractJsonStr content)

/-- Table data: ordered headers and ordered rows of string cells. -/
structure TableData where
  headers : List String
  rows : List (List String)
deriving Repr, DecidableEq

/-- JavaScript truthiness fallback a or-else b for strings: the empty string
is falsy. -/
def jsOr (a b : String) : String :=
  if a = "" then b else a

/-- The JavaScript expression row[i] or-else fallback: an out-of-range read
yields undefined, which is falsy like the empty string. -/
def cellOr (row : List String) (i : Nat) (fallback : String) : String :=
  match row[i]? with
  | some s => jsOr s fallback
  | none => fallback

/-- Array.prototype.map with the element index, from a given start index. -/
def mapWithIdxFrom (f : Nat → α → β) : Nat → List α → List β
  | _, [] => []
  | i, a :: as => f i a :: mapWithIdxFrom f (i + 1) as

/-- Array.prototype.map with the element index. -/
def mapWithIdx (f : Nat → α → β) (l : List α) : List β :=
  mapWithIdxFrom f 0 l

/-- Assignment row[row.length - 1] = v.  On the empty array the JavaScript
statement stores at property -1, which no later array operation of the code
reads, so it is a no-op for every observable output. -/
def setLastJs (row : List String) (v : String) : List String :=
  if row.isEmpty then row else row.dropLast ++ [v]

/-- Column normalization shared by searchAndFill and modifyTable: pad a short
row on the right with the original row's value at the same index (empty
string when absent), truncate a long row to the expected column count. -/
def normalizeRow (expectedCols : Nat) (originalRow row : List String) : List String :=
  if row.length < expectedCols then
    row ++ ((List.range expectedCols).drop row.length).map
      (fun i => (originalRow[i]?).getD "")
  else if expectedCols < row.length then
    row.take expectedCols
  else row

/-- Row-count-mismatch repair of searchAndFill: find the first candidate row
whose first cell equals the original row's first cell; when it exists and is
at least as wide as the header count, replace the original row's last cell by
the matched row's last cell, otherwise keep the original row.  The dummy
value for the last cell of an empty matched row only arises when the header
count is zero, and is then truncated away by normalizeRow. -/
def fillFromMatch (numCols : Nat) (candRows : List (List String))
    (originalRow : List String) : List String :=
  match candRows.find? (fun newRow => newRow[0]? == originalRow[0]?) with
  | some matchedRow =>
    if numCols ≤ matchedRow.length then
      setLastJs originalRow (matchedRow.getLast?.getD "")
    else originalRow
  | none => originalRow

/-- Equal-row-count repair of searchAndFill, one row: rebuild the row cell by
cell against the header count, keeping the original first cell, preferring
original cells in middle columns and the candidate cell in the last column,
with the JavaScript or-else fallbacks of the source. -/
def alignRow (numCols : Nat) (originalRow newRow : List String) : List String :=
  (List.range numCols).map (fun col =>
    if col = 0 then cellOr originalRow col ""
    else if col < numCols - 1 then cellOr originalRow col (cellOr newRow col "")
    else cellOr newRow col (cellOr originalRow col ""))

/-- Payload parsed from the model response by searchAndFill. -/
structure SFParsed where
  tableData : TableData
  searchSummary : Option String
deriving Repr, DecidableEq

/-- Value returned by the searchAndFill mutation. -/
structure SFOutput where
  tableData : TableData
  searchSummary : Option String
deriving Repr, DecidableEq

/-- Reconciliation performed by searchAndFill after a successful parse:
force the original headers, coerce the row count back to the original's
(by first-column matching when the counts differ, by positional alignment
when they agree), then normalize every row's column count.  In the equal-count
branch the source reads the original row without a fallback; the index is
always in range there, so the defaulted read is the same value. -/
def searchAndFillReconcile (original : TableData) (parsed : SFParsed) : SFOutput :=
  let headers := original.headers
  let rows1 :=
    if parsed.tableData.rows.length ≠ original.rows.length then
      original.rows.map (fun originalRow =>
        fillFromMatch headers.length parsed.tableData.rows originalRow)
    else
      mapWithIdx (fun idx newRow =>
        alignRow headers.length ((original.rows[idx]?).getD []) newRow)
        parsed.tableData.rows
  let rows2 := mapWithIdx (fun idx row =>
    normalizeRow headers.length ((original.rows[idx]?).getD []) row) rows1
  { tableData := { headers := headers, rows := rows2 },
    searchSummary := parsed.searchSummary }

/-- Outcome of the call to invokeLLM followed by the read of the first
choice's message content: either a rejection of invokeLLM, or a resolved
result whose content is a string or is absent (also covering a non-string
content). -/
abbrev GatewayOutcome : Type := Except String (Option String)

/-- The searchAndFill mutation.  The try block of the source starts after the
invokeLLM call and after the content check, so a gateway rejection and a
missing or empty content are raised to the caller; only a parse failure
degrades to the original table with the failure summary. -/
def searchAndFill (original : TableData) (gateway : GatewayOutcome)
    (parse : String → Option SFParsed) : Except String SFOutput :=
  match gateway with
  | .error e => .error e
  | .ok none => .error "Failed to get response from LLM"
  | .ok (some s) =>
    if s = "" then .error "Failed to get response from LLM"
    else
      match parse s with
      | some parsed => .ok (searchAndFillReconcile original parsed)
      | none => .ok { tableData := original, searchSummary := some "处理失败，请重试" }

/-- Payload parsed from the model response by modifyTable. -/
structure MTParsed where
  tableData : TableData
  explanation : Option String
deriving Repr, DecidableEq

/-- Value returned by the modifyTable mutation. -/
structure MTOutput where
  tableData : TableData
  explanation : Option String
deriving Repr, DecidableEq

/-- Reconciliation performed by modifyTable after a successful parse: keep
the candidate's headers and rows, only normalizing every row's column count
against the candidate's own header count, padding from the original row at
the same index. -/
def modifyTableReconcile (original : TableData) (parsed : MTParsed) : MTOutput :=
  let expectedCols := parsed.tableData.headers.length
  let rows := mapWithIdx (fun idx row =>
    normalizeRow expectedCols ((original.rows[idx]?).getD []) row)
    parsed.tableData.rows
  { tableData := { headers := parsed.tableData.headers, rows := rows },
    explanation := parsed.explanation }

/-- The modifyTable mutation, with the same raise and degrade structure as
searchAndFill. -/
def modifyTable (original : TableData) (gateway : GatewayOutcome)
    (parse : String → Option MTParsed) : Except String MTOutput :=
  match gateway with
  | .error e => .error e
  | .ok none => .error "Failed to get response from LLM"
  | .ok (some s) =>
    if s = "" then .error "Failed to get response from LLM"
    else
      match parse s with
      | some parsed => .ok (modifyTableReconcile original parsed)
      | none => .ok { tableData := original, explanation := some "处理失败，请重试" }

/-- Payload parsed from the model response by recognizeFromImage. -/
structure RecParsed where
  title : Option String
  tableData : TableData
deriving Repr, DecidableEq

/-- Value returned by the recognizeFromImage mutation. -/
structure RecOutput where
  title : Option String
  tableData : TableData
deriving Repr, DecidableEq

/-- Fallback table returned by recognizeFromImage when the parse fails. -/
def recognizeFallbackTable : TableData :=
  { headers := ["列1", "列2", "列3"], rows := [["无法识别", "", ""]] }

/-- The recognizeFromImage mutation: on a successful parse the candidate is
returned as-is with no structural repair; a parse failure degrades to the
fixed fallback table with the generic title; a gateway rejection and a
missing or empty content are raised to the caller. -/
def recognizeFromImage (gateway : GatewayOutcome)
    (parse : String → Option RecParsed) : Except String RecOutput :=
  match gateway with
  | .error e => .error e
  | .ok none => .error "Failed to get response from LLM"
  | .ok (some s) =>
    if s = "" then .error "Failed to get response from LLM"
    else
      match parse s with
      | some parsed => .ok { title := parsed.title, tableData := parsed.tableData }
      | none => .ok { title := some "识别的表格", tableData := recognizeFallbackTable }

theorem length_mapWithIdxFrom (f : Nat → α → β) (s : Nat) (l : List α) :
    (mapWithIdxFrom f s l).length = l.length := by
  induction l generalizing s with
  | nil => rfl
  | cons a as ih => simp [mapWithIdxFrom, ih]

theorem length_mapWithIdx (f : Nat → α → β) (l : List α) :
    (mapWithIdx f l).length = l.length :=
  length_mapWithIdxFrom f 0 l

theorem getElem?_mapWithIdxFrom (f : Nat → α → β) (s : Nat) (l : List α) (i : Nat) :
    (mapWithIdxFrom f s l)[i]? = (l[i]?).map (f (s + i)) := by
  induction l generalizing s i with
  | nil => simp [mapWithIdxFrom]
  | cons a as ih =>
    cases i with
    | zero => simp [mapWithIdxFrom]
    | succ j =>
      rw [show s + (j + 1) = (s + 1) + j by omega]
      simp only [mapWithIdxFrom, List.getElem?_cons_succ, ih (s + 1) j]

theorem getElem?_mapWithIdx (f : Nat → α → β) (l : List α) (i : Nat) :
    (mapWithIdx f l)[i]? = (l[i]?).map (f i) := by
  simpa using getElem?_mapWithIdxFrom f 0 l i

theorem length_normalizeRow (expectedCols : Nat) (originalRow row : List String) :
    (normalizeRow expectedCols originalRow row).length = expectedCols := by
  unfold normalizeRow
  split
  · next h => simp; omega
  · split
    · next h => simp; omega
    · next h1 h2 => omega

theorem normalizeRow_of_length_eq (expectedCols : Nat) (originalRow row : List String)
    (h : row.length = expectedCols) :
    normalizeRow expectedCols originalRow row = row := by
  unfold normalizeRow
  split
  · next h1 => omega
  · split
    · next h1 h2 => omega
    · rfl

theorem length_alignRow (numCols : Nat) (originalRow newRow : List String) :
    (alignRow numCols originalRow newRow).length = numCols := by
  simp [alignRow]

theorem cellOr_empty (row : List String) (i : Nat) :
    cellOr row i "" = (row[i]?).getD "" := by
  unfold cellOr
  cases row[i]? with
  | none => rfl
  | some s =>
    simp only [Option.getD_some, jsOr]
    split
    · next h => exact h.symm
    · rfl

theorem alignRow_getElem? (numCols : Nat) (originalRow newRow : List String)
    (c : Nat) (hc : c < numCols) :
    (alignRow numCols originalRow newRow)[c]? =
      some (if c = 0 then cellOr originalRow c ""
        else if c < numCols - 1 then cellOr originalRow c (cellOr newRow c "")
        else cellOr newRow c (cellOr originalRow c "")) := by
  simp [alignRow, List.getElem?_range hc]

theorem normalizeRow_getElem?_keep (expectedCols : Nat) (originalRow row : List String)
    (c : Nat) (hcr : c < row.length) (hcE : c < expectedCols) :
    (normalizeRow expectedCols originalRow row)[c]? = row[c]? := by
  unfold normalizeRow
  split
  · next h => rw [List.getElem?_append_left hcr]
  · split
    · next h1 h2 => rw [List.getElem?_take]; simp [hcE]
    · rfl

theorem normalizeRow_getElem?_pad (expectedCols : Nat) (originalRow row : List String)
    (c : Nat) (hcr : row.length ≤ c) (hcE : c < expectedCols) :
    (normalizeRow expectedCols originalRow row)[c]? = some ((originalRow[c]?).getD "") := by
  have hlt : row.length < expectedCols := Nat.lt_of_le_of_lt hcr hcE
  unfold normalizeRow
  rw [if_pos hlt, List.getElem?_append_right (by simpa using hcr)]
  rw [List.getElem?_map, List.getElem?_drop]
  rw [Nat.add_sub_cancel' hcr, List.getElem?_range hcE]
  rfl

theorem find?_eq_some_of_earliest {α : Type} (p : α → Bool) (l : List α)
    (j : Nat) (m : α) (hj : l[j]? = some m) (hp : p m = true)
    (hearly : ∀ k, k < j → ∀ x, l[k]? = some x → p x = false) :
    l.find? p = some m := by
  induction l generalizing j with
  | nil => simp at hj
  | cons a as ih =>
    cases j with
    | zero =>
      simp only [List.getElem?_cons_zero, Option.some.injEq] at hj
      subst hj
      simp [List.find?_cons, hp]
    | succ j' =>
      have ha : p a = false := hearly 0 (Nat.succ_pos j') a (by simp)
      simp only [List.find?_cons, ha]
      exact ih j' (by simpa using hj)
        (fun k hk x hx => hearly (k + 1) (Nat.succ_lt_succ hk) x (by simpa using hx))

theorem sf_rows_length (original : TableData) (parsed : SFParsed) :
    (searchAndFillReconcile original parsed).tableData.rows.length
      = original.rows.length := by
  unfold searchAndFillReconcile
  by_cases h : parsed.tableData.rows.length = original.rows.length
  · simp [h, length_mapWithIdx]
  · simp [h, length_mapWithIdx]

theorem sf_getElem?_of_length_eq (original : TableData) (parsed : SFParsed)
    (hlen : parsed.tableData.rows.length = original.rows.length)
    (i : Nat) (hi : i < original.rows.length) :
    (searchAndFillReconcile original parsed).tableData.rows[i]? =
      some (alignRow original.headers.length ((original.rows[i]?).getD [])
        ((parsed.tableData.rows[i]?).getD [])) := by
  have hip : i < parsed.tableData.rows.length := by omega
  unfold searchAndFillReconcile
  simp only [hlen, ne_eq, not_true_eq_false, if_false,
    getElem?_mapWithIdx, List.getElem?_eq_getElem hip, Option.map_some,
    Option.getD_some]
  simp only [Option.map_some']
  rw [normalizeRow_of_length_eq _ _ _ (length_alignRow _ _ _)]

theorem sf_getElem?_of_length_ne (original : TableData) (parsed : SFParsed)
    (hne : parsed.tableData.rows.length ≠ original.rows.length)
    (i : Nat) (hi : i < original.rows.length) :
    (searchAndFillReconcile original parsed).tableData.rows[i]? =
      some (normalizeRow original.headers.length ((original.rows[i]?).getD [])
        (fillFromMatch original.headers.length parsed.tableData.rows
          ((original.rows[i]?).getD []))) := by
  unfold searchAndFillReconcile
  simp only [hne, ne_eq, not_false_eq_true, if_true,
    getElem?_mapWithIdx, List.getElem?_map, List.getElem?_eq_getElem hi,
    Option.map_some', Option.getD_some]

theorem cellOr_chain (o r : List String) (c : Nat) :
    cellOr o c (cellOr r c "") =
      if (o[c]?).getD "" = "" then (r[c]?).getD "" else (o[c]?).getD "" := by
  rw [cellOr_empty r c]
  cases ho : o[c]? with
  | none => simp [cellOr, ho]
  | some s =>
    by_cases hs : s = "" <;> simp [cellOr, ho, jsOr, hs]

/-- C9: JSON extraction parses the first triple-backtick fenced block's inner
content when one exists (optionally tagged json), and otherwise parses the
trimmed text directly, so wrapping a JSON payload in a fenced code block does
not change the parsed value: on the fenced and plain forms of the payload
with field a mapped to 1 the selected substrings and the parsed values
coincide. -/
theorem c9_extraction_round_trip :
    extractJsonStr "```json\n\x7b\"a\":1\x7d\n```" = "\x7b\"a\":1\x7d"
    ∧ extractJsonStr "\x7b\"a\":1\x7d" = "\x7b\"a\":1\x7d"
    ∧ parseJsonResponse "```json\n\x7b\"a\":1\x7d\n```" = parseJsonResponse "\x7b\"a\":1\x7d"
    ∧ parseJsonResponse "\x7b\"a\":1\x7d" = some (Json.jobj [("a", Json.jnum 1)]) :=
  ⟨rfl, rfl, rfl, rfl⟩

/-- C1 counterexample: on the success path of recognizeFromImage the parsed
candidate is returned with no structural repair, so a candidate with one
header and a two-cell row yields an output violating the column-count
invariant the claim asserts for all three operations. -/
theorem c1_recognize_counterexample :
    recognizeFromImage (Except.ok (some "resp"))
        (fun _ => some ⟨none, ⟨["A"], [["x", "y"]]⟩⟩)
      = Except.ok ⟨none, ⟨["A"], [["x", "y"]]⟩⟩
    ∧ ¬ (∀ row ∈ (TableData.mk ["A"] [["x", "y"]]).rows,
        row.length = (TableData.mk ["A"] [["x", "y"]]).headers.length) :=
  ⟨rfl, by decide⟩

/-- C1 (amended): for searchAndFill and modifyTable every row of the returned
tableData has length equal to the returned headers' length, for every
original table and parsed candidate table; for recognizeFromImage only the
parse-failure fallback table satisfies the invariant, the success path
returning the candidate as-is. -/
theorem c1_column_count (original : TableData) (parsedSF : SFParsed)
    (parsedMT : MTParsed) :
    (∀ row ∈ (searchAndFillReconcile original parsedSF).tableData.rows,
      row.length = (searchAndFillReconcile original parsedSF).tableData.headers.length)
    ∧ (∀ row ∈ (modifyTableReconcile original parsedMT).tableData.rows,
      row.length = (modifyTableReconcile original parsedMT).tableData.headers.length)
    ∧ (∀ row ∈ recognizeFallbackTable.rows,
      row.length = recognizeFallbackTable.headers.length) := by
  refine ⟨?_, ?_, by decide⟩
  · intro row hrow
    rw [List.mem_iff_getElem?] at hrow
    obtain ⟨n, hn⟩ := hrow
    show row.length = original.headers.length
    unfold searchAndFillReconcile at hn
    simp only [getElem?_mapWithIdx] at hn
    cases h : (if parsedSF.tableData.rows.length ≠ original.rows.length then
        original.rows.map (fun originalRow =>
          fillFromMatch original.headers.length parsedSF.tableData.rows originalRow)
      else
        mapWithIdx (fun idx newRow =>
          alignRow original.headers.length ((original.rows[idx]?).getD []) newRow)
          parsedSF.tableData.rows)[n]? with
    | none => rw [h] at hn; simp at hn
    | some r =>
      rw [h] at hn
      simp only [Option.map_some', Option.some.injEq] at hn
      rw [← hn, length_normalizeRow]
  · intro row hrow
    rw [List.mem_iff_getElem?] at hrow
    obtain ⟨n, hn⟩ := hrow
    show row.length = parsedMT.tableData.headers.length
    unfold modifyTableReconcile at hn
    simp only [getElem?_mapWithIdx] at hn
    cases h : parsedMT.tableData.rows[n]? with
    | none => rw [h] at hn; simp at hn
    | some r =>
      rw [h] at hn
      simp only [Option.map_some', Option.some.injEq] at hn
      rw [← hn, length_normalizeRow]

/-- C1 witness: concrete instances of the amended invariant for the three
conjuncts. -/
theorem c1_column_count_witness :
    ((["1", "2"] : List String).length
      = (searchAndFillReconcile ⟨["A", "B"], [["1", "2"]]⟩
          ⟨⟨["A", "B"], [["1", "2"]]⟩, none⟩).tableData.headers.length)
    ∧ ((["1", "2", ""] : List String).length
      = (modifyTableReconcile ⟨["A", "B"], [["1", "2"]]⟩
          ⟨⟨["A", "B", "C"], [["1", "2"]]⟩, none⟩).tableData.headers.length)
    ∧ ((["无法识别", "", ""] : List String).length
      = recognizeFallbackTable.headers.length) := by
  obtain ⟨h1, h2, h3⟩ := c1_column_count ⟨["A", "B"], [["1", "2"]]⟩
    ⟨⟨["A", "B"], [["1", "2"]]⟩, none⟩ ⟨⟨["A", "B", "C"], [["1", "2"]]⟩, none⟩
  exact ⟨h1 _ (by decide), h2 _ (by decide), h3 _ (by decide)⟩

/-- C2 counterexample: when the gateway call fails, searchAndFill and
modifyTable raise the failure to the caller instead of returning the original
table with an explanation, because the try block of the source starts after
the invokeLLM call. -/
theorem c2_gateway_raises_counterexample :
    searchAndFill ⟨["A"], [["x"]]⟩ (Except.error "network error") (fun _ => none)
      = Except.error "network error"
    ∧ modifyTable ⟨["A"], [["x"]]⟩ (Except.error "network error") (fun _ => none)
      = Except.error "network error" :=
  ⟨rfl, rfl⟩

/-- C2 (amended): for searchAndFill and modifyTable, when the gateway call
succeeds with non-empty string content that cannot be parsed as JSON, the
operation does not raise and returns the original tableData unchanged with
the failure explanation; a gateway failure is raised to the caller
unchanged. -/
theorem c2_parse_failure_degrades (original : TableData) (s e : String)
    (parseSF : String → Option SFParsed) (parseMT : String → Option MTParsed)
    (hs : s ≠ "") (hSF : parseSF s = none) (hMT : parseMT s = none) :
    searchAndFill original (Except.ok (some s)) parseSF
      = Except.ok ⟨original, some "处理失败，请重试"⟩
    ∧ modifyTable original (Except.ok (some s)) parseMT
      = Except.ok ⟨original, some "处理失败，请重试"⟩
    ∧ searchAndFill original (Except.error e) parseSF = Except.error e
    ∧ modifyTable original (Except.error e) parseMT = Except.error e
    ∧ searchAndFill original (Except.ok none) parseSF
      = Except.error "Failed to get response from LLM"
    ∧ modifyTable original (Except.ok none) parseMT
      = Except.error "Failed to get response from LLM"
    ∧ searchAndFill original (Except.ok (some "")) parseSF
      = Except.error "Failed to get response from LLM"
    ∧ modifyTable original (Except.ok (some "")) parseMT
      = Except.error "Failed to get response from LLM" := by
  refine ⟨?_, ?_, rfl, rfl, rfl, rfl, rfl, rfl⟩
  · simp [searchAndFill, hs, hSF]
  · simp [modifyTable, hs, hMT]

/-- C2 witness: the amended behaviour at a concrete unparsable response and a
concrete gateway failure. -/
theorem c2_parse_failure_degrades_witness :
    searchAndFill ⟨["A"], [["x"]]⟩ (Except.ok (some "oops")) (fun _ => none)
      = Except.ok ⟨⟨["A"], [["x"]]⟩, some "处理失败，请重试"⟩
    ∧ modifyTable ⟨["A"], [["x"]]⟩ (Except.ok (some "oops")) (fun _ => none)
      = Except.ok ⟨⟨["A"], [["x"]]⟩, some "处理失败，请重试"⟩
    ∧ searchAndFill ⟨["A"], [["x"]]⟩ (Except.error "boom") (fun _ => none)
      = Except.error "boom"
    ∧ modifyTable ⟨["A"], [["x"]]⟩ (Except.error "boom") (fun _ => none)
      = Except.error "boom"
    ∧ searchAndFill ⟨["A"], [["x"]]⟩ (Except.ok none) (fun _ => none)
      = Except.error "Failed to get response from LLM"
    ∧ modifyTable ⟨["A"], [["x"]]⟩ (Except.ok none) (fun _ => none)
      = Except.error "Failed to get response from LLM"
    ∧ searchAndFill ⟨["A"], [["x"]]⟩ (Except.ok (some "")) (fun _ => none)
      = Except.error "Failed to get response from LLM"
    ∧ modifyTable ⟨["A"], [["x"]]⟩ (Except.ok (some "")) (fun _ => none)
      = Except.error "Failed to get response from LLM" :=
  c2_parse_failure_degrades ⟨["A"], [["x"]]⟩ "oops" "boom"
    (fun _ => none) (fun _ => none) (by decide) rfl rfl

/-- C3 counterexample: when the gateway invocation fails, recognizeFromImage
raises the failure to the caller instead of returning the fallback table. -/
theorem c3_gateway_raises_counterexample :
    recognizeFromImage (Except.error "network error") (fun _ => none)
      = Except.error "network error" :=
  rfl

/-- C3 (amended): when the gateway invocation succeeds with non-empty string
content but the response cannot be parsed as JSON, recognizeFromImage does
not raise and returns the fixed fallback table with the generic title; a
gateway failure is raised to the caller unchanged. -/
theorem c3_parse_failure_fallback (s e : String)
    (parse : String → Option RecParsed) (hs : s ≠ "") (hp : parse s = none) :
    recognizeFromImage (Except.ok (some s)) parse
      = Except.ok ⟨some "识别的表格", recognizeFallbackTable⟩
    ∧ recognizeFromImage (Except.error e) parse = Except.error e
    ∧ recognizeFromImage (Except.ok none) parse
      = Except.error "Failed to get response from LLM"
    ∧ recognizeFromImage (Except.ok (some "")) parse
      = Except.error "Failed to get response from LLM" := by
  refine ⟨?_, rfl, rfl, rfl⟩
  simp [recognizeFromImage, hs, hp]

/-- C3 witness: the amended behaviour at a concrete unparsable response and a
concrete gateway failure. -/
theorem c3_parse_failure_fallback_witness :
    recognizeFromImage (Except.ok (some "oops")) (fun _ => none)
      = Except.ok ⟨some "识别的表格", recognizeFallbackTable⟩
    ∧ recognizeFromImage (Except.error "boom") (fun _ => none)
      = Except.error "boom"
    ∧ recognizeFromImage (Except.ok none) (fun _ => none)
      = Except.error "Failed to get response from LLM"
    ∧ recognizeFromImage (Except.ok (some "")) (fun _ => none)
      = Except.error "Failed to get response from LLM" :=
  c3_parse_failure_fallback "oops" "boom" (fun _ => none) (by decide) rfl

/-- C4: for every original table, gateway outcome and candidate table parsed
from the model response, a value returned by searchAndFill carries exactly
the original table's headers, on the success path and on the degraded
path. -/
theorem c4_headers_preserved (original : TableData) (gateway : GatewayOutcome)
    (parse : String → Option SFParsed) (out : SFOutput)
    (h : searchAndFill original gateway parse = Except.ok out) :
    out.tableData.headers = original.headers := by
  cases gateway with
  | error e => simp [searchAndFill] at h
  | ok content =>
    cases content with
    | none => simp [searchAndFill] at h
    | some s =>
      by_cases hs : s = ""
      · simp [searchAndFill, hs] at h
      · cases hp : parse s with
        | some parsed =>
          simp only [searchAndFill, hs, if_neg, ite_false, hp,
            Except.ok.injEq] at h
          rw [← h]
          rfl
        | none =>
          simp only [searchAndFill, hs, if_neg, ite_false, hp,
            Except.ok.injEq] at h
          rw [← h]

/-- C4 witness: a concrete candidate with different headers and a different
row count still yields the original headers. -/
theorem c4_headers_preserved_witness :
    (SFOutput.mk ⟨["A"], [["x"]]⟩ none).tableData.headers
      = (TableData.mk ["A"] [["x"]]).headers :=
  c4_headers_preserved ⟨["A"], [["x"]]⟩ (Except.ok (some "resp"))
    (fun _ => some ⟨⟨["Z", "W"], [["1", "2"], ["3", "4"]]⟩, none⟩)
    ⟨⟨["A"], [["x"]]⟩, none⟩ rfl

/-- C5: for every original table, gateway outcome and candidate table parsed
from the model response, a value returned by searchAndFill has exactly as
many rows as the original table, on the success path and on the degraded
path. -/
theorem c5_row_count_preserved (original : TableData) (gateway : GatewayOutcome)
    (parse : String → Option SFParsed) (out : SFOutput)
    (h : searchAndFill original gateway parse = Except.ok out) :
    out.tableData.rows.length = original.rows.length := by
  cases gateway with
  | error e => simp [searchAndFill] at h
  | ok content =>
    cases content with
    | none => simp [searchAndFill] at h
    | some s =>
      by_cases hs : s = ""
      · simp [searchAndFill, hs] at h
      · cases hp : parse s with
        | some parsed =>
          simp only [searchAndFill, hs, if_neg, ite_false, hp,
            Except.ok.injEq] at h
          rw [← h]
          exact sf_rows_length original parsed
        | none =>
          simp only [searchAndFill, hs, if_neg, ite_false, hp,
            Except.ok.injEq] at h
          rw [← h]

/-- C5 witness: a concrete candidate with three rows against a two-row
original still yields two rows. -/
theorem c5_row_count_preserved_witness :
    (SFOutput.mk ⟨["A", "B"], [["x", ""], ["y", ""]]⟩ none).tableData.rows.length
      = (TableData.mk ["A", "B"] [["x", ""], ["y", ""]]).rows.length :=
  c5_row_count_preserved ⟨["A", "B"], [["x", ""], ["y", ""]]⟩
    (Except.ok (some "resp"))
    (fun _ => some ⟨⟨["A", "B"], [["p", "1"], ["q", "2"], ["r", "3"]]⟩, none⟩)
    ⟨⟨["A", "B"], [["x", ""], ["y", ""]]⟩, none⟩ rfl

/-- C6: for searchAndFill when the candidate's row count equals the
original's (rows aligned by position), for every row index the output keeps
the original first-column cell; every column strictly between the first and
the last takes the original value unless the original cell is empty, in
which case it takes the candidate's value; the last column takes the
candidate's value unless the candidate cell is empty, in which case it takes
the original's value.  Empty and absent cells coincide under the or-else
fallbacks of the source. -/
theorem c6_equal_count_cells (original : TableData) (parsed : SFParsed)
    (hlen : parsed.tableData.rows.length = original.rows.length)
    (hO : ∀ r ∈ original.rows, r.length = original.headers.length)
    (i : Nat) (hi : i < original.rows.length) :
    (1 ≤ original.headers.length →
      (((searchAndFillReconcile original parsed).tableData.rows[i]?).getD [])[0]? =
        ((original.rows[i]?).getD [])[0]?)
    ∧ (∀ c, 0 < c → c + 1 < original.headers.length →
      (((searchAndFillReconcile original parsed).tableData.rows[i]?).getD [])[c]? =
        some (if ((((original.rows[i]?).getD [])[c]?).getD "") = ""
          then (((parsed.tableData.rows[i]?).getD [])[c]?).getD ""
          else (((original.rows[i]?).getD [])[c]?).getD ""))
    ∧ (2 ≤ original.headers.length →
      (((searchAndFillReconcile original parsed).tableData.rows[i]?).getD
          [])[original.headers.length - 1]? =
        some (if ((((parsed.tableData.rows[i]?).getD
              [])[original.headers.length - 1]?).getD "") = ""
          then (((original.rows[i]?).getD [])[original.headers.length - 1]?).getD ""
          else (((parsed.tableData.rows[i]?).getD
            [])[original.headers.length - 1]?).getD "")) := by
  have hrow := sf_getElem?_of_length_eq original parsed hlen i hi
  have horigD : (original.rows[i]?).getD [] = original.rows[i] := by
    rw [List.getElem?_eq_getElem hi]
    rfl
  have hlenrow : (original.rows[i]).length = original.headers.length :=
    hO _ (List.getElem_mem hi)
  refine ⟨?_, ?_, ?_⟩
  · intro h1
    rw [hrow, Option.getD_some,
      alignRow_getElem? _ _ _ 0 (by omega), if_pos rfl, cellOr_empty, horigD,
      List.getElem?_eq_getElem (show 0 < (original.rows[i]).length by omega)]
    rfl
  · intro c hc0 hcH
    rw [hrow, Option.getD_some, alignRow_getElem? _ _ _ c (by omega),
      if_neg (by omega), if_pos (by omega), cellOr_chain]
  · intro h2
    rw [hrow, Option.getD_some,
      alignRow_getElem? _ _ _ (original.headers.length - 1) (by omega),
      if_neg (by omega), if_neg (by omega), cellOr_chain]

/-- C6 witness: a concrete aligned candidate where the key cell is kept, an
empty middle cell is filled from the candidate and the last cell takes the
candidate's value. -/
theorem c6_equal_count_cells_witness :
    (((searchAndFillReconcile ⟨["A", "B", "C"], [["k1", "", "old3"]]⟩
        ⟨⟨["Z", "W", "Q"], [["BAD", "n2", "new3"]]⟩, some "sum"⟩).tableData.rows[0]?).getD
          [])[0]? = some "k1"
    ∧ (((searchAndFillReconcile ⟨["A", "B", "C"], [["k1", "", "old3"]]⟩
        ⟨⟨["Z", "W", "Q"], [["BAD", "n2", "new3"]]⟩, some "sum"⟩).tableData.rows[0]?).getD
          [])[1]? = some "n2"
    ∧ (((searchAndFillReconcile ⟨["A", "B", "C"], [["k1", "", "old3"]]⟩
        ⟨⟨["Z", "W", "Q"], [["BAD", "n2", "new3"]]⟩, some "sum"⟩).tableData.rows[0]?).getD
          [])[2]? = some "new3" := by
  obtain ⟨h1, h2, h3⟩ := c6_equal_count_cells
    ⟨["A", "B", "C"], [["k1", "", "old3"]]⟩
    ⟨⟨["Z", "W", "Q"], [["BAD", "n2", "new3"]]⟩, some "sum"⟩
    rfl (by decide) 0 (by decide)
  exact ⟨h1 (by decide), h2 1 (by decide) (by decide), h3 (by decide)⟩

/-- C7: for searchAndFill when the candidate's row count differs from the
original's, each original row whose first-column cell matches some candidate
row's first-column cell, the matched row being the one found first and at
least as wide as the header count, becomes the original row with only its
last cell replaced by the matched row's last cell; with a narrower matched
row or no match at all the original row is kept unchanged. -/
theorem c7_mismatch_by_key (original : TableData) (parsed : SFParsed)
    (hne : parsed.tableData.rows.length ≠ original.rows.length)
    (hO : ∀ r ∈ original.rows, r.length = original.headers.length)
    (hH : 1 ≤ original.headers.length)
    (i : Nat) (hi : i < original.rows.length) :
    (∀ m, parsed.tableData.rows.find?
        (fun newRow => newRow[0]? == ((original.rows[i]?).getD [])[0]?) = some m →
      (original.headers.length ≤ m.length →
        (searchAndFillReconcile original parsed).tableData.rows[i]? =
          some (((original.rows[i]?).getD []).dropLast ++ [m.getLast?.getD ""]))
      ∧ (m.length < original.headers.length →
        (searchAndFillReconcile original parsed).tableData.rows[i]? =
          some ((original.rows[i]?).getD [])))
    ∧ (parsed.tableData.rows.find?
        (fun newRow => newRow[0]? == ((original.rows[i]?).getD [])[0]?) = none →
      (searchAndFillReconcile original parsed).tableData.rows[i]? =
        some ((original.rows[i]?).getD [])) := by
  have hrow := sf_getElem?_of_length_ne original parsed hne i hi
  have horigD : (original.rows[i]?).getD [] = original.rows[i] := by
    rw [List.getElem?_eq_getElem hi]
    rfl
  have hlenrow : ((original.rows[i]?).getD []).length = original.headers.length := by
    rw [horigD]; exact hO _ (List.getElem_mem hi)
  constructor
  · intro m hfind
    constructor
    · intro hml
      rw [hrow]
      have hfill : fillFromMatch original.headers.length parsed.tableData.rows
          ((original.rows[i]?).getD []) =
          ((original.rows[i]?).getD []).dropLast ++ [m.getLast?.getD ""] := by
        have hempty : ((original.rows[i]?).getD []).isEmpty = false := by
          rw [List.isEmpty_eq_false]
          intro hcon
          rw [hcon] at hlenrow
          simp at hlenrow
          omega
        simp only [fillFromMatch, hfind, if_pos hml, setLastJs, hempty,
          Bool.false_eq_true, if_false]
      rw [hfill, normalizeRow_of_length_eq]
      simp only [List.length_append, List.length_dropLast, List.length_cons,
        List.length_nil]
      omega
    · intro hml
      rw [hrow]
      have hfill : fillFromMatch original.headers.length parsed.tableData.rows
          ((original.rows[i]?).getD []) = (original.rows[i]?).getD [] := by
        simp only [fillFromMatch, hfind, if_neg (by omega : ¬ original.headers.length ≤ m.length)]
      rw [hfill, normalizeRow_of_length_eq _ _ _ hlenrow]
  · intro hfind
    rw [hrow]
    have hfill : fillFromMatch original.headers.length parsed.tableData.rows
        ((original.rows[i]?).getD []) = (original.rows[i]?).getD [] := by
      simp only [fillFromMatch, hfind]
    rw [hfill, normalizeRow_of_length_eq _ _ _ hlenrow]

/-- C7 witness: row realignment by key over a three-row candidate against a
two-row original recovers the candidate's last-column values for both keys
independent of candidate order. -/
theorem c7_mismatch_by_key_witness :
    (searchAndFillReconcile ⟨["K", "V"], [["k1", "x"], ["k2", "y"]]⟩
        ⟨⟨["K", "V"], [["k2", "Y2"], ["k1", "X2"], ["z", "w"]]⟩, none⟩).tableData.rows[0]?
      = some ["k1", "X2"]
    ∧ (searchAndFillReconcile ⟨["K", "V"], [["k1", "x"], ["k2", "y"]]⟩
        ⟨⟨["K", "V"], [["k2", "Y2"], ["k1", "X2"], ["z", "w"]]⟩, none⟩).tableData.rows[1]?
      = some ["k2", "Y2"] := by
  obtain ⟨hm0, _⟩ := c7_mismatch_by_key
    ⟨["K", "V"], [["k1", "x"], ["k2", "y"]]⟩
    ⟨⟨["K", "V"], [["k2", "Y2"], ["k1", "X2"], ["z", "w"]]⟩, none⟩
    (by decide) (by decide) (by decide) 0 (by decide)
  obtain ⟨hm1, _⟩ := c7_mismatch_by_key
    ⟨["K", "V"], [["k1", "x"], ["k2", "y"]]⟩
    ⟨⟨["K", "V"], [["k2", "Y2"], ["k1", "X2"], ["z", "w"]]⟩, none⟩
    (by decide) (by decide) (by decide) 1 (by decide)
  exact ⟨(hm0 ["k1", "X2"] (by decide)).1 (by decide),
    (hm1 ["k2", "Y2"] (by decide)).1 (by decide)⟩

/-- C10: in the row-count-mismatch path of searchAndFill, when several
candidate rows carry the matching first-column cell, the earliest one in
candidate order is the one whose last-column cell is copied; later
duplicates are ignored. -/
theorem c10_earliest_duplicate_wins (original : TableData) (parsed : SFParsed)
    (hne : parsed.tableData.rows.length ≠ original.rows.length)
    (hO : ∀ r ∈ original.rows, r.length = original.headers.length)
    (hH : 1 ≤ original.headers.length)
    (i : Nat) (hi : i < original.rows.length)
    (j : Nat) (m : List String)
    (hj : parsed.tableData.rows[j]? = some m)
    (hm : (m[0]? == ((original.rows[i]?).getD [])[0]?) = true)
    (hearly : ∀ k, k < j → ∀ r, parsed.tableData.rows[k]? = some r →
      (r[0]? == ((original.rows[i]?).getD [])[0]?) = false)
    (hml : original.headers.length ≤ m.length) :
    (searchAndFillReconcile original parsed).tableData.rows[i]? =
      some (((original.rows[i]?).getD []).dropLast ++ [m.getLast?.getD ""]) := by
  have hfind := find?_eq_some_of_earliest
    (fun newRow => newRow[0]? == ((original.rows[i]?).getD [])[0]?)
    parsed.tableData.rows j m hj hm hearly
  have hrow := sf_getElem?_of_length_ne original parsed hne i hi
  have horigD : (original.rows[i]?).getD [] = original.rows[i] := by
    rw [List.getElem?_eq_getElem hi]
    rfl
  have hlenrow : ((original.rows[i]?).getD []).length = original.headers.length := by
    rw [horigD]; exact hO _ (List.getElem_mem hi)
  rw [hrow]
  have hempty : ((original.rows[i]?).getD []).isEmpty = false := by
    rw [List.isEmpty_eq_false]
    intro hcon
    rw [hcon] at hlenrow
    simp at hlenrow
    omega
  have hfill : fillFromMatch original.headers.length parsed.tableData.rows
      ((original.rows[i]?).getD []) =
      ((original.rows[i]?).getD []).dropLast ++ [m.getLast?.getD ""] := by
    simp only [fillFromMatch, hfind, if_pos hml, setLastJs, hempty,
      Bool.false_eq_true, if_false]
  rw [hfill, normalizeRow_of_length_eq]
  simp only [List.length_append, List.length_dropLast, List.length_cons,
    List.length_nil]
  omega

/-- C10 witness: with two candidate rows keyed k1, the earlier one supplies
the copied last-column value. -/
theorem c10_earliest_duplicate_wins_witness :
    (searchAndFillReconcile ⟨["K", "V"], [["k1", "x"]]⟩
        ⟨⟨["K", "V"], [["zz", "C"], ["k1", "A"], ["k1", "B"]]⟩, none⟩).tableData.rows[0]?
      = some ["k1", "A"] := by
  refine c10_earliest_duplicate_wins ⟨["K", "V"], [["k1", "x"]]⟩
    ⟨⟨["K", "V"], [["zz", "C"], ["k1", "A"], ["k1", "B"]]⟩, none⟩
    (by decide) (by decide) (by decide) 0 (by decide) 1 ["k1", "A"]
    (by decide) (by decide) ?_ (by decide)
  intro k hk r hr
  have hk0 : k = 0 := by omega
  subst hk0
  have h1 : (["zz", "C"] : List String) = r := Option.some.inj (by rw [← hr]; rfl)
  rw [← h1]
  decide

/-- C8: on the success path of modifyTable the output's headers and row count
are exactly the candidate's, and each output row is the candidate row
normalized to the candidate's own header count: cells below both the row's
length and the header count are kept, cells between the row's length and the
header count are padded from the original row at the same index (empty
string when absent), and cells beyond the header count are truncated. -/
theorem c8_modify_normalization (original : TableData) (parsed : MTParsed)
    (i c : Nat) :
    (modifyTableReconcile original parsed).tableData.headers
        = parsed.tableData.headers
    ∧ (modifyTableReconcile original parsed).tableData.rows.length
        = parsed.tableData.rows.length
    ∧ (i < parsed.tableData.rows.length →
        (((modifyTableReconcile original parsed).tableData.rows[i]?).getD []).length
          = parsed.tableData.headers.length
        ∧ (c < ((parsed.tableData.rows[i]?).getD []).length →
            c < parsed.tableData.headers.length →
            (((modifyTableReconcile original parsed).tableData.rows[i]?).getD [])[c]?
              = ((parsed.tableData.rows[i]?).getD [])[c]?)
        ∧ (((parsed.tableData.rows[i]?).getD []).length ≤ c →
            c < parsed.tableData.headers.length →
            (((modifyTableReconcile original parsed).tableData.rows[i]?).getD [])[c]?
              = some ((((original.rows[i]?).getD [])[c]?).getD ""))) := by
  refine ⟨rfl, length_mapWithIdx _ _, ?_⟩
  intro hi
  have hrow : (modifyTableReconcile original parsed).tableData.rows[i]? =
      some (normalizeRow parsed.tableData.headers.length
        ((original.rows[i]?).getD []) ((parsed.tableData.rows[i]?).getD [])) := by
    unfold modifyTableReconcile
    simp only [getElem?_mapWithIdx, List.getElem?_eq_getElem hi,
      Option.map_some', Option.getD_some]
  rw [hrow, Option.getD_some]
  exact ⟨length_normalizeRow _ _ _,
    fun h1 h2 => normalizeRow_getElem?_keep _ _ _ _ h1 h2,
    fun h1 h2 => normalizeRow_getElem?_pad _ _ _ _ h1 h2⟩

/-- C8 witness: the padding example of the claim, where the original row
supplies the missing third cell of the shorter candidate row. -/
theorem c8_modify_normalization_witness :
    (((modifyTableReconcile ⟨["A", "B", "C"], [["k1", "old2", "old3"]]⟩
        ⟨⟨["A", "B", "C"], [["k1", "new2"]]⟩, none⟩).tableData.rows[0]?).getD [])[2]?
      = some "old3"
    ∧ (modifyTableReconcile ⟨["A", "B", "C"], [["k1", "old2", "old3"]]⟩
        ⟨⟨["A", "B", "C"], [["k1", "new2"]]⟩, none⟩).tableData.rows
      = [["k1", "new2", "old3"]] := by
  refine ⟨?_, by decide⟩
  have h := (c8_modify_normalization ⟨["A", "B", "C"], [["k1", "old2", "old3"]]⟩
    ⟨⟨["A", "B", "C"], [["k1", "new2"]]⟩, none⟩ 0 2).2.2 (by decide)
  exact h.2.2 (by decide) (by decide)
